import Mathlib

/-!
Verification of the asset build pipeline in `frappe/build.py`.

The Python module is embedded shallowly:
* the filesystem seen by the Asset Stager is an association list from a
  path to the kind of node living there (`FS`);
* the Bundle Packer's environment (file existence, contents, mtimes, and
  the external `JavascriptMinify` capability) is a record of functions
  (`PEnv`), and the global `timestamps` dict is threaded explicitly (`TS`);
* a Python statement that can raise an exception not handled at that point
  is modelled with `Option`/`Except` (`none`/`.error` = the exception
  propagates out of the modelled function).
-/

set_option maxRecDepth 4096

/-- A single quote character (code point 39), kept as a named constant. -/
def squoteChar : Char := Char.ofNat 39

/-- The one-character string holding a single quote. -/
def squoteStr : String := String.mk [squoteChar]

/-! ## Asset Stager: filesystem model (build.py `symlink`, `make_asset_dirs`) -/

/-- Kind of node at a path: regular file, directory, or symbolic link.
A directory node stands for the whole subtree rooted there (the stager
only ever creates, removes or replaces an alias path as a unit:
`shutil.rmtree`/`shutil.copytree` act on the subtree as one node). -/
inductive FNode where
  | file : FNode
  | dir : FNode
  | symlinkTo (target : String) : FNode
deriving DecidableEq, Repr

/-- The filesystem: an association list from path to node. -/
abbrev FS := List (String × FNode)

/-- Node at path `p`, if any (`os.path.exists` is `isSome` of this). -/
def FS.lookup (fs : FS) (p : String) : Option FNode :=
  List.lookup p fs

/-- `os.path.exists(p)`. -/
def FS.pathExists (fs : FS) (p : String) : Bool :=
  (FS.lookup fs p).isSome

/-- `os.path.islink(p)`. -/
def FS.islink (fs : FS) (p : String) : Bool :=
  match FS.lookup fs p with
  | some (.symlinkTo _) => true
  | _ => false

/-- `os.path.isdir(p)`. -/
def FS.isdir (fs : FS) (p : String) : Bool :=
  FS.lookup fs p == some .dir

/-- Delete the node at `p` (`os.unlink`/`os.remove` on a link or file,
`shutil.rmtree` on a directory: in this model all three erase the node). -/
def FS.remove (fs : FS) (p : String) : FS :=
  fs.filter (fun e => e.1 != p)

/-- Put node `n` at path `p`, replacing whatever was there. -/
def FS.set (fs : FS) (p : String) (n : FNode) : FS :=
  (p, n) :: FS.remove fs p

/-- `shutil.copytree(src, tgt)`: the copy materialises a real directory
at `tgt` (the copied contents are abstracted into the one `.dir` node). -/
def FS.copytree (fs : FS) (_src tgt : String) : FS :=
  FS.set fs tgt .dir

/-- Errors raised by `symlink` (both are subclasses of `OSError`). -/
inductive LinkErr where
  | fileExistsErr (p : String) : LinkErr
  | isADirectoryErr (p : String) : LinkErr
deriving DecidableEq, Repr

/-- build.py `symlink(target, link_name, overwrite)`.

`temp_link_name` is the name produced by the `tempfile.mktemp` retry
loop; the loop retries until `os.symlink` succeeds, so at the point the
loop exits the name is fresh (theorems carry that as a hypothesis).
On the `IsADirectoryError` path the `except:` clause removes the
temporary link before re-raising, so the error case leaves the
filesystem as it was on entry. -/
def symlink (fs : FS) (target link_name : String) (overwrite : Bool)
    (temp_link_name : String) : Except LinkErr FS :=
  if !overwrite then
    if FS.pathExists fs link_name then
      .error (.fileExistsErr link_name)
    else
      .ok (FS.set fs link_name (.symlinkTo target))
  else
    let fs1 := FS.set fs temp_link_name (.symlinkTo target)
    if FS.isdir fs1 link_name then
      .error (.isADirectoryErr link_name)
    else
      .ok (FS.set (FS.remove fs1 temp_link_name) link_name (.symlinkTo target))

/-- Body of the `for source, target in symlinks` loop of
`make_asset_dirs(make_copy, restore)` (build.py lines 262-289), for one
`(source, target)` pair.  Returns the new filesystem together with the
messages printed/warned.  `temp` is the fresh name the `symlink` helper's
`mktemp` loop settles on (only used in link mode). -/
def make_asset_dir_entry (make_copy restore : Bool) (fs : FS)
    (source target temp : String) : FS × List String :=
  if FS.pathExists fs source then
    if restore then
      if FS.pathExists fs target then
        let fs1 := if FS.islink fs target then FS.remove fs target
                   else FS.remove fs target
        (FS.copytree fs1 source target, [])
      else (fs, [])
    else if make_copy then
      if FS.pathExists fs target then
        (fs, ["Target " ++ target ++ " already exists."])
      else (FS.copytree fs source target, [])
    else
      let fs1 := if FS.pathExists fs target then
                   (if FS.islink fs target then FS.remove fs target
                    else FS.remove fs target)
                 else fs
      match symlink fs1 source target true temp with
      | .ok fs2 => (fs2, [])
      | .error _ => (fs1, ["Cannot link " ++ source ++ " to " ++ target])
  else
    (fs, [])

theorem FS.lookup_remove (fs : FS) (p q : String) :
    FS.lookup (FS.remove fs p) q = if q = p then none else FS.lookup fs q := by
  induction fs with
  | nil => simp [FS.lookup, FS.remove]
  | cons e rest ih =>
    obtain ⟨k, n⟩ := e
    simp only [FS.remove, List.filter] at *
    by_cases hk : k = p
    · subst hk
      simp only [bne_self_eq_false]
      rw [ih]
      by_cases hq : q = k
      · simp [hq]
      · simp [hq, FS.lookup, List.lookup, show (q == k) = false by
          simpa using hq]
    · have : (k != p) = true := by simpa using hk
      rw [this]
      by_cases hq : q = k
      · subst hq
        simp [FS.lookup, List.lookup, if_neg hk]
      · simp only [FS.lookup, List.lookup, show (q == k) = false by
          simpa using hq]
        exact ih

theorem FS.lookup_set (fs : FS) (p q : String) (n : FNode) :
    FS.lookup (FS.set fs p n) q = if q = p then some n else FS.lookup fs q := by
  by_cases hq : q = p
  · subst hq
    simp [FS.set, FS.lookup, List.lookup]
  · simp only [FS.set, FS.lookup, List.lookup, show (q == p) = false by
      simpa using hq, if_neg hq]
    have := FS.lookup_remove fs p q
    rw [if_neg hq] at this
    exact this

/-! ### Claims C2 (link mode over a real directory) and C10 (restore mode) -/

/-- Claim C2, counterexample: in link mode, with the alias path currently a
real directory, staging does NOT reject with a directory-collision error
(no message is emitted at all) and the directory is NOT left untouched:
it is deleted and replaced by a fresh symlink to the source. -/
theorem make_asset_dirs_link_dir_not_rejected :
    (make_asset_dir_entry false false
        [("apps/app/public", FNode.dir), ("assets/app", FNode.dir)]
        "apps/app/public" "assets/app" "assets/tmp0").2 = [] ∧
    FS.lookup (make_asset_dir_entry false false
        [("apps/app/public", FNode.dir), ("assets/app", FNode.dir)]
        "apps/app/public" "assets/app" "assets/tmp0").1 "assets/app"
      = some (FNode.symlinkTo "apps/app/public") ∧
    FS.lookup (make_asset_dir_entry false false
        [("apps/app/public", FNode.dir), ("assets/app", FNode.dir)]
        "apps/app/public" "assets/app" "assets/tmp0").1 "assets/app"
      ≠ some FNode.dir := by
  decide

/-- Claim C2 (amended): in link mode, when the alias path currently is a
real directory, `make_asset_dirs` first deletes that directory recursively
and then installs a fresh symlink to the source; no directory-collision
error is raised for that alias (the `IsADirectoryError` check inside the
`symlink` helper only fires when the path is still a directory at
replacement time, which the preceding `shutil.rmtree` prevents). -/
theorem make_asset_dir_entry_link_over_dir (fs : FS) (source target temp : String)
    (hsrc : FS.pathExists fs source = true)
    (hdir : FS.lookup fs target = some FNode.dir)
    (htemp : FS.lookup fs temp = none) :
    (make_asset_dir_entry false false fs source target temp).2 = [] ∧
    FS.lookup (make_asset_dir_entry false false fs source target temp).1 target
      = some (FNode.symlinkTo source) := by
  have hne : target ≠ temp := by
    intro h
    rw [h, htemp] at hdir
    exact Option.noConfusion hdir
  have hpe : FS.pathExists fs target = true := by
    simp [FS.pathExists, hdir]
  have hlink : FS.islink fs target = false := by
    simp [FS.islink, hdir]
  have hnotdir : FS.isdir (FS.set (FS.remove fs target) temp
      (FNode.symlinkTo source)) target = false := by
    simp [FS.isdir, FS.lookup_set, FS.lookup_remove, hne]
  simp [make_asset_dir_entry, hsrc, hpe, hlink, symlink, hnotdir,
    FS.lookup_set]

/-- Claim C2, witness for the amended theorem at a concrete filesystem. -/
theorem make_asset_dir_entry_link_over_dir_witness :
    (make_asset_dir_entry false false [("s", FNode.dir), ("t", FNode.dir)]
        "s" "t" "x").2 = [] ∧
    FS.lookup (make_asset_dir_entry false false
        [("s", FNode.dir), ("t", FNode.dir)] "s" "t" "x").1 "t"
      = some (FNode.symlinkTo "s") :=
  make_asset_dir_entry_link_over_dir [("s", FNode.dir), ("t", FNode.dir)]
    "s" "t" "x" (by decide) (by decide) (by decide)

/-- Claim C10: in restore mode, when the alias path does not already
exist, `make_asset_dirs` creates nothing: the filesystem is returned
unchanged and no message is emitted.  `shutil.copytree` only runs inside
the `if os.path.exists(target)` branch, so restore converts existing
aliases but never creates new ones. -/
theorem make_asset_dir_entry_restore_no_create (fs : FS)
    (source target temp : String)
    (h : FS.pathExists fs target = false) :
    make_asset_dir_entry false true fs source target temp = (fs, []) := by
  by_cases hs : FS.pathExists fs source = true
  · simp [make_asset_dir_entry, hs, h]
  · simp only [Bool.not_eq_true] at hs
    simp [make_asset_dir_entry, hs]

/-- Claim C10, witness at a concrete filesystem. -/
theorem make_asset_dir_entry_restore_no_create_witness :
    make_asset_dir_entry false true [("s", FNode.dir)] "s" "t" "x"
      = ([("s", FNode.dir)], []) :=
  make_asset_dir_entry_restore_no_create [("s", FNode.dir)] "s" "t" "x"
    (by decide)

/-! ## HTML Template Transpiler (build.py `scrub_html_template`,
`html_to_js_template`) -/

/-- Whitespace as matched by Python's `\s` on an ASCII pattern:
space, tab, newline, carriage return, vertical tab, form feed. -/
def isPySpace (c : Char) : Bool :=
  c = ' ' || c = '\t' || c = '\n' || c = '\r' ||
  c = Char.ofNat 11 || c = Char.ofNat 12

/-- Worker for `re.sub("\s+", " ", content)`: the flag says whether the
previous character was part of a whitespace run already replaced. -/
def collapseWsAux : Bool → List Char → List Char
  | _, [] => []
  | prevWs, c :: rest =>
    if isPySpace c then
      if prevWs then collapseWsAux true rest
      else ' ' :: collapseWsAux true rest
    else c :: collapseWsAux false rest

/-- `re.sub("\s+", " ", content)`: every maximal whitespace run becomes
one space. -/
def collapseWs (cs : List Char) : List Char :=
  collapseWsAux false cs

/-- After the opening `<!--`, find the first `-->` (the regex `.*?` is
non-greedy, and `.` cannot match a newline); returns the characters
after that `-->`, or `none` when the comment never closes. -/
def afterClose : List Char → Option (List Char)
  | [] => none
  | c :: rest =>
    if c = '\n' then none
    else if c = '-' ∧ rest.take 2 = ['-', '>'] then some (rest.drop 2)
    else afterClose rest

/-- Worker for `re.sub("(<!--.*?-->)", "", content)`, scanning left to
right.  The fuel argument is only a structural-termination device: each
step consumes at least one character, so `fuel = cs.length` (as used by
`stripComments`) never runs out. -/
def stripCommentsFuel : Nat → List Char → List Char
  | 0, cs => cs
  | _ + 1, [] => []
  | fuel + 1, c :: rest =>
    if c = '<' ∧ rest.take 3 = ['!', '-', '-'] then
      match afterClose (rest.drop 3) with
      | some rem => stripCommentsFuel fuel rem
      | none => c :: stripCommentsFuel fuel rest
    else c :: stripCommentsFuel fuel rest

/-- `re.sub("(<!--.*?-->)", "", content)`: remove each comment block,
matched non-greedily. -/
def stripComments (cs : List Char) : List Char :=
  stripCommentsFuel cs.length cs

/-- Python's `str.replace(old, new)` for one-character `old`/`new`. -/
def pyCharReplace (cs : List Char) (old new : Char) : List Char :=
  cs.map (fun c => if c = old then new else c)

/-- build.py `scrub_html_template(content)`:
whitespace collapsed to single spaces, then comments stripped, then
`content.replace("'", "\'")`.  In Python the literal `"\'"` denotes the
single-quote character itself (the backslash escape resolves inside the
Python string literal), so the final step replaces a single quote by a
single quote: it adds no backslash. -/
def scrub_html_template (content : String) : String :=
  let ws := collapseWs content.toList
  let nocomm := stripComments ws
  String.mk (pyCharReplace nocomm squoteChar squoteChar)

/-- Python `str.split(sep)` for a one-character separator, on the
character list: `"a:b".split(":") = ["a", "b"]`, `"".split(":") = [""]`. -/
def pySplitChar (sep : Char) (cs : List Char) : List (List Char) :=
  cs.foldr
    (fun c acc =>
      match acc with
      | [] => [[]]
      | g :: gs => if c = sep then [] :: g :: gs else (c :: g) :: gs)
    [[]]

/-- Python `str.split(sep)` for a one-character separator. -/
def pySplit (sep : Char) (s : String) : List String :=
  (pySplitChar sep s.toList).map String.mk

/-- `path.rsplit("/", 1)[-1]`: the part of the path after its last
slash (the whole path when it has no slash). -/
def pyBasename (path : String) : String :=
  (pySplit '/' path).getLastD ""

/-- The template key of build.py `html_to_js_template`:
`path.rsplit("/", 1)[-1][:-5]`.  The Python slice `[:-5]` keeps the
first `len - 5` characters (and clamps at zero). -/
def templateKey (path : String) : String :=
  let b := (pyBasename path).toList
  String.mk (b.take (b.length - 5))

/-- build.py `html_to_js_template(path, content)`: the registration
statement `frappe.templates["<key>"] = '<scrubbed>';` plus newline. -/
def html_to_js_template (path content : String) : String :=
  "frappe.templates[\"" ++ templateKey path ++ "\"] = " ++ squoteStr
    ++ scrub_html_template content ++ squoteStr ++ ";\n"

/-! ### Claim C6: the template key is a fixed five-character truncation -/

theorem dropLast_five (l : List Char) :
    l.dropLast.dropLast.dropLast.dropLast.dropLast = l.take (l.length - 5) := by
  simp only [List.dropLast_eq_take, List.length_take, List.take_take]
  congr 1
  omega

/-- Claim C6: for every input file path, the template key computed by
`html_to_js_template` is the path's base name with exactly its last five
characters removed (a fixed-length truncation, not an extension strip);
this holds whether or not the base name ends in `.html`. -/
theorem templateKey_drops_last_five (path : String) :
    templateKey path
      = String.mk (pyBasename path).toList.dropLast.dropLast.dropLast.dropLast.dropLast := by
  rw [templateKey, dropLast_five]

/-! ### Claim C1: the single-quote "escaping" in `scrub_html_template` -/

/-- Claim C1 is refuted by the code: on the spec's own §8 example
`<!-- c -->  <div>it's</div>` (in a file `foo.html`), the registration
statement produced by `html_to_js_template` contains the apostrophe
bare between the enclosing single quotes — no backslash appears anywhere
in the output, because Python's `content.replace("'", "\'")` replaces a
quote by a quote.  The whitespace collapse and comment strip do happen. -/
theorem html_to_js_template_quote_not_escaped :
    html_to_js_template "foo.html"
        (String.mk ['<', '!', '-', '-', ' ', 'c', ' ', '-', '-', '>', ' ', ' ',
          '<', 'd', 'i', 'v', '>', 'i', 't', squoteChar, 's',
          '<', '/', 'd', 'i', 'v', '>'])
      = "frappe.templates[\"foo\"] = " ++ squoteStr ++ " <div>it"
          ++ squoteStr ++ "s</div>" ++ squoteStr ++ ";\n" ∧
    '\\' ∉ (html_to_js_template "foo.html"
        (String.mk ['<', '!', '-', '-', ' ', 'c', ' ', '-', '-', '>', ' ', ' ',
          '<', 'd', 'i', 'v', '>', 'i', 't', squoteChar, 's',
          '<', '/', 'd', 'i', 'v', '>'])).toList := by
  constructor
  · rfl
  · decide

/-! ## Bundle Packer (build.py `pack`) -/

/-- The environment `pack` reads: the filesystem calls it makes and the
external `JavascriptMinify` capability (`jsm.minify` as a function from
file text to minified text). `content f` is the file's text as read with
`text_type(..., "utf-8", errors="ignore")`. -/
structure PEnv where
  pathExists : String → Bool
  isdir : String → Bool
  mtime : String → Int
  content : String → String
  minify : String → String

/-- The module-global `timestamps` dict. -/
abbrev TS := List (String × Int)

/-- `timestamps[k] = v`. -/
def TS.set (ts : TS) (k : String) (v : Int) : TS :=
  (k, v) :: ts.filter (fun e => e.1 != k)

/-- `timestamps.get(k)` (`none` when the key is absent). -/
def TS.get (ts : TS) (k : String) : Option Int :=
  List.lookup k ts

/-- Is `pat` a prefix of `cs`? -/
def startsWithL : List Char → List Char → Bool
  | _, [] => true
  | [], _ :: _ => false
  | c :: cs, p :: ps => c = p && startsWithL cs ps

/-- Does `pat` occur contiguously in `cs`? -/
def containsSubL : List Char → List Char → Bool
  | [], pat => startsWithL [] pat
  | c :: rest, pat => startsWithL (c :: rest) pat || containsSubL rest pat

/-- Python `pat in s` (substring containment). -/
def containsSub (s pat : String) : Bool :=
  containsSubL s.toList pat.toList

/-- Python `s.strip("\n")`: remove newlines from BOTH ends of the
string (note: `str.strip` strips leading characters as well as
trailing ones). -/
def stripNl (s : String) : String :=
  String.mk
    (((s.toList.dropWhile (fun c => c = '\n')).reverse.dropWhile
        (fun c => c = '\n')).reverse)

/-- Modelled from the spec's words in claim C4, for comparison with the
code: "appended trimmed of trailing newlines" — remove newlines from the
END of the string only. -/
def trimTrailingNewlines (s : String) : String :=
  String.mk ((s.toList.reverse.dropWhile (fun c => c = '\n')).reverse)

/-- The flag-splitting step at the top of `pack`'s per-source loop:
`if ":" in f: f, suffix = f.split(":")`.  With no colon the path is kept
and there is no suffix; with one colon the two halves are unpacked; with
two or more colons `f.split(":")` has three or more elements and the
tuple unpacking raises an unhandled `ValueError` (`none`). -/
def splitFlag (f : String) : Option (String × Option String) :=
  match pySplit ':' f with
  | [_] => some (f, none)
  | [a, b] => some (a, some b)
  | _ => none

/-- Body of the `try` block of `pack`'s per-source loop (build.py lines
340-366), returning the text appended to `outtxt` plus any verbose log,
or `none` when an exception escapes the block (the only such exception in
this model is the `IndexError` from `extn = f.rsplit(".", 1)[1]` on a
path with no dot).  First matching dispatch rule wins. -/
def tryBody (env : PEnv) (outtype : String) (no_compress verbose : Bool)
    (f : String) (suffix : Option String) : Option (String × List String) :=
  let data := env.content f
  let parts := pySplit '.' f
  if parts.length < 2 then none
  else
    let extn := parts.getLastD ""
    if outtype = "js" ∧ extn = "js" ∧ no_compress = false
        ∧ suffix ≠ some "concat" ∧ containsSub f ".min." = false then
      let minified := env.minify data
      let out := if minified = "" then "" else stripNl minified ++ ";"
      let logs := if verbose then
          [f ++ ": " ++ toString (minified.length / 1024) ++ "k"] else []
      some (out, logs)
    else if outtype = "js" ∧ extn = "html" then
      some (html_to_js_template f data, [])
    else
      some ("\n/*\n *\t" ++ f ++ "\n */" ++ "\n" ++ data ++ "\n", [])

/-- State accumulated by `pack` over one target: the output text, the
global `timestamps` dict, and the messages printed so far. -/
structure PackSt where
  outtxt : String
  ts : TS
  logs : List String
deriving DecidableEq, Repr

/-- One iteration of `pack`'s `for f in sources` loop.  `none` models an
exception raised outside the per-source `try` (the flag-splitting
`ValueError`), which aborts the whole target build; everything inside
the `try` is caught and turned into a log entry. -/
def packStep (env : PEnv) (outtype : String) (no_compress verbose : Bool)
    (st : PackSt) (f0 : String) : Option PackSt :=
  match splitFlag f0 with
  | none => none
  | some (f, suffix) =>
    if !env.pathExists f || env.isdir f then
      some { st with logs := st.logs ++ ["did not find " ++ f] }
    else
      let ts1 := TS.set st.ts f (env.mtime f)
      match tryBody env outtype no_compress verbose f suffix with
      | some (contrib, logs2) =>
        some { outtxt := st.outtxt ++ contrib, ts := ts1,
               logs := st.logs ++ logs2 }
      | none =>
        some { outtxt := st.outtxt, ts := ts1,
               logs := st.logs ++ ["--Error in:" ++ f ++ "--"] }

/-- build.py `pack(target, sources, no_compress, verbose)`:
`outtype = target.split(".")[-1]`, then the per-source loop.  On success
the returned `outtxt` is written as the complete new contents of the
target file; `none` models the unhandled exception path (no write). -/
def pack (env : PEnv) (target : String) (sources : List String)
    (no_compress verbose : Bool) (ts : TS) : Option PackSt :=
  let outtype := (pySplit '.' target).getLastD ""
  sources.foldlM (packStep env outtype no_compress verbose)
    { outtxt := "", ts := ts, logs := [] }

/-- The text one source adds to `outtxt` (empty for a skipped or failed
source); `pack`'s output is these contributions concatenated in source
order. -/
def sourceContrib (env : PEnv) (outtype : String) (no_compress verbose : Bool)
    (f0 : String) : String :=
  match splitFlag f0 with
  | none => ""
  | some (f, suffix) =>
    if !env.pathExists f || env.isdir f then ""
    else
      match tryBody env outtype no_compress verbose f suffix with
      | some (contrib, _) => contrib
      | none => ""

/-- The observable build result of a `PackSt`: output text and
timestamp cache (the logs aside). -/
def outTs (st : PackSt) : String × TS :=
  (st.outtxt, st.ts)

/-- A small concrete environment for witnesses: `missing.js` does not
exist, `somedir` is a directory, every file's content is its own path,
and the minifier returns a newline-wrapped marker (empty for `e.js`). -/
def testEnv : PEnv where
  pathExists := fun f => f != "missing.js"
  isdir := fun f => f == "somedir"
  mtime := fun _ => 5
  content := fun f => f
  minify := fun s => if s = "e.js" then "" else "\nM\n"

theorem packStep_some_outtxt (env : PEnv) (ot : String) (nc vb : Bool)
    (st : PackSt) (f : String) (r : PackSt)
    (h : packStep env ot nc vb st f = some r) :
    r.outtxt = st.outtxt ++ sourceContrib env ot nc vb f := by
  rw [sourceContrib]
  cases hs : splitFlag f with
  | none =>
    simp only [packStep, hs] at h
    exact Option.noConfusion h
  | some p =>
    obtain ⟨g, sfx⟩ := p
    simp only [packStep, hs] at h
    by_cases hc : (!env.pathExists g || env.isdir g) = true
    · rw [if_pos hc] at h
      cases h
      simp [hc]
    · rw [if_neg hc] at h
      cases ht : tryBody env ot nc vb g sfx with
      | none =>
        rw [ht] at h
        cases h
        simp [hc, ht]
      | some cl =>
        obtain ⟨c, lg⟩ := cl
        rw [ht] at h
        cases h
        simp [hc, ht]

theorem packFold_outtxt (env : PEnv) (ot : String) (nc vb : Bool) :
    ∀ (l : List String) (st r : PackSt),
      List.foldlM (packStep env ot nc vb) st l = some r →
      r.outtxt
        = st.outtxt ++ (l.map (sourceContrib env ot nc vb)).foldr (· ++ ·) "" := by
  intro l
  induction l with
  | nil =>
    intro st r h
    simp only [List.foldlM] at h
    cases h
    simp
  | cons f rest ih =>
    intro st r h
    rw [List.foldlM_cons] at h
    cases hp : packStep env ot nc vb st f with
    | none => rw [hp] at h; cases h
    | some st1 =>
      rw [hp] at h
      simp only [Option.bind_eq_bind, Option.some_bind] at h
      have h1 := ih st1 r h
      have h2 := packStep_some_outtxt env ot nc vb st f st1 hp
      rw [h1, h2, List.map_cons, List.foldr_cons, String.append_assoc]

theorem splitFlag_eq_none (f : String) (h : 3 ≤ (pySplit ':' f).length) :
    splitFlag f = none := by
  rw [splitFlag]
  rcases hl : pySplit ':' f with _ | ⟨a, _ | ⟨b, _ | ⟨c, rest⟩⟩⟩
  · rfl
  · rw [hl] at h; simp at h
  · rw [hl] at h; simp at h
  · rfl

theorem packStep_skip (env : PEnv) (ot : String) (nc vb : Bool)
    (st : PackSt) (f g : String) (sfx : Option String)
    (hsplit : splitFlag f = some (g, sfx))
    (hmiss : (!env.pathExists g || env.isdir g) = true) :
    packStep env ot nc vb st f
      = some { st with logs := st.logs ++ ["did not find " ++ g] } := by
  simp only [packStep, hsplit]
  rw [if_pos hmiss]

theorem packStep_log_shift (env : PEnv) (ot : String) (nc vb : Bool)
    (st : PackSt) (f : String) :
    packStep env ot nc vb st f
      = (packStep env ot nc vb { outtxt := st.outtxt, ts := st.ts, logs := [] } f).map
          (fun r => { outtxt := r.outtxt, ts := r.ts, logs := st.logs ++ r.logs }) := by
  cases hs : splitFlag f with
  | none => simp [packStep, hs]
  | some p =>
    obtain ⟨g, sfx⟩ := p
    by_cases hc : (!env.pathExists g || env.isdir g) = true
    · simp [packStep, hs, hc]
    · cases ht : tryBody env ot nc vb g sfx with
      | none => simp [packStep, hs, hc, ht]
      | some cl =>
        obtain ⟨c, lg⟩ := cl
        simp [packStep, hs, hc, ht]

theorem packFold_log_shift (env : PEnv) (ot : String) (nc vb : Bool) :
    ∀ (l : List String) (st : PackSt),
      List.foldlM (packStep env ot nc vb) st l
        = (List.foldlM (packStep env ot nc vb)
              { outtxt := st.outtxt, ts := st.ts, logs := [] } l).map
            (fun r => { outtxt := r.outtxt, ts := r.ts, logs := st.logs ++ r.logs }) := by
  intro l
  induction l with
  | nil =>
    intro st
    simp [List.foldlM]
  | cons f rest ih =>
    intro st
    rw [List.foldlM_cons, List.foldlM_cons]
    rw [packStep_log_shift env ot nc vb st f]
    cases hp : packStep env ot nc vb { outtxt := st.outtxt, ts := st.ts, logs := [] } f with
    | none => simp
    | some r =>
      simp only [Option.map_some', Option.bind_eq_bind, Option.some_bind]
      rw [ih { outtxt := r.outtxt, ts := r.ts, logs := st.logs ++ r.logs }, ih r]
      cases List.foldlM (packStep env ot nc vb)
          { outtxt := r.outtxt, ts := r.ts, logs := [] } rest with
      | none => simp
      | some x => simp

/-! ### Claim C5: two or more colons abort the whole target build -/

/-- Claim C5: for any source path containing two or more `:` characters
(so `f.split(":")` has at least three parts), the tuple unpacking
`f, suffix = f.split(":")` raises an unhandled `ValueError`; the step is
outside the per-source `try`, so `pack` aborts for the entire target no
matter what other sources the target has. -/
theorem pack_double_colon_aborts (env : PEnv) (target : String)
    (nc vb : Bool) (ts : TS) (pre post : List String) (f : String)
    (h : 3 ≤ (pySplit ':' f).length) :
    pack env target (pre ++ f :: post) nc vb ts = none := by
  simp only [pack]
  rw [List.foldlM_append]
  cases hp : List.foldlM (packStep env ((pySplit '.' target).getLastD "") nc vb)
      { outtxt := "", ts := ts, logs := [] } pre with
  | none => simp
  | some st =>
    simp only [Option.bind_eq_bind, Option.some_bind]
    rw [List.foldlM_cons]
    have hnone : packStep env ((pySplit '.' target).getLastD "") nc vb st f = none := by
      simp [packStep, splitFlag_eq_none f h]
    rw [hnone]
    simp

/-- Claim C5, witness: one source with two colons aborts its target. -/
theorem pack_double_colon_aborts_witness :
    pack testEnv "t.js" ["a:b:c.js"] false false [] = none :=
  pack_double_colon_aborts testEnv "t.js" false false [] [] [] "a:b:c.js"
    (by decide)

/-! ### Claim C9: declared source order is the concatenation order -/

/-- Claim C9: for a target with sources `[a, b, c]`, whenever `pack`
completes, its output text is exactly a's contribution, then b's, then
c's, concatenated in the declared order. -/
theorem pack_output_in_source_order (env : PEnv) (target : String)
    (nc vb : Bool) (ts : TS) (a b c : String) (st : PackSt)
    (h : pack env target [a, b, c] nc vb ts = some st) :
    st.outtxt
      = sourceContrib env ((pySplit '.' target).getLastD "") nc vb a
        ++ sourceContrib env ((pySplit '.' target).getLastD "") nc vb b
        ++ sourceContrib env ((pySplit '.' target).getLastD "") nc vb c := by
  simp only [pack] at h
  have hout := packFold_outtxt env ((pySplit '.' target).getLastD "") nc vb
    [a, b, c] { outtxt := "", ts := ts, logs := [] } st h
  simpa [String.append_assoc] using hout

/-- Claim C9, witness: a js, an html and a css source in order. -/
theorem pack_output_in_source_order_witness :
    (pack testEnv "t.js" ["a.js", "b.html", "c.css"] false false []).map
        PackSt.outtxt
      = some (sourceContrib testEnv "js" false false "a.js"
          ++ sourceContrib testEnv "js" false false "b.html"
          ++ sourceContrib testEnv "js" false false "c.css") := by
  cases hp : pack testEnv "t.js" ["a.js", "b.html", "c.css"] false false [] with
  | none => exact absurd hp (by decide)
  | some st =>
    simp only [Option.map_some']
    rw [pack_output_in_source_order testEnv "t.js" false false []
      "a.js" "b.html" "c.css" st hp]
    decide

/-! ### Claim C8: a missing or directory source is skipped, not fatal -/

/-- Claim C8: when one source of a target does not exist on disk or is a
directory, `pack` logs a "did not find" diagnostic for it and otherwise
behaves exactly as if that source were absent from the list: the output
text and timestamp cache agree with the run on the remaining sources, so
every remaining source is still processed and the target is not
aborted. -/
theorem pack_skips_missing_source (env : PEnv) (bad g : String)
    (sfx : Option String)
    (hsplit : splitFlag bad = some (g, sfx))
    (hmiss : (!env.pathExists g || env.isdir g) = true)
    (target : String) (nc vb : Bool) (ts : TS) (pre post : List String) :
    ((pack env target (pre ++ bad :: post) nc vb ts).map outTs
        = (pack env target (pre ++ post) nc vb ts).map outTs)
    ∧ (∀ st, pack env target (pre ++ bad :: post) nc vb ts = some st →
        ("did not find " ++ g) ∈ st.logs) := by
  simp only [pack]
  rw [List.foldlM_append, List.foldlM_append]
  cases hp : List.foldlM (packStep env ((pySplit '.' target).getLastD "") nc vb)
      { outtxt := "", ts := ts, logs := [] } pre with
  | none =>
    constructor
    · simp
    · intro st hst
      simp at hst
  | some s =>
    simp only [Option.bind_eq_bind, Option.some_bind]
    rw [List.foldlM_cons,
      packStep_skip env ((pySplit '.' target).getLastD "") nc vb s bad g sfx
        hsplit hmiss]
    simp only [Option.bind_eq_bind, Option.some_bind]
    rw [packFold_log_shift env ((pySplit '.' target).getLastD "") nc vb post
        { s with logs := s.logs ++ ["did not find " ++ g] },
      packFold_log_shift env ((pySplit '.' target).getLastD "") nc vb post s]
    dsimp only
    cases List.foldlM (packStep env ((pySplit '.' target).getLastD "") nc vb)
        { outtxt := s.outtxt, ts := s.ts, logs := [] } post with
    | none =>
      constructor
      · simp
      · intro st hst
        simp at hst
    | some x =>
      constructor
      · simp [outTs]
      · intro st hst
        simp only [Option.map_some', Option.some.injEq] at hst
        rw [← hst]
        simp

/-- Claim C8, witness: a missing source between two good ones is skipped,
the rest of the target still builds, and the diagnostic is logged. -/
theorem pack_skips_missing_source_witness :
    ((pack testEnv "t.js" ["a.js", "missing.js", "e.js"] false false []).map outTs
      = (pack testEnv "t.js" ["a.js", "e.js"] false false []).map outTs)
    ∧ ("did not find " ++ "missing.js")
        ∈ ((pack testEnv "t.js" ["a.js", "missing.js", "e.js"] false false []).map
            PackSt.logs).getD [] := by
  have h := pack_skips_missing_source testEnv "missing.js" "missing.js" none
    (by decide) (by decide) "t.js" false false [] ["a.js"] ["e.js"]
  refine ⟨h.1, ?_⟩
  cases hp : pack testEnv "t.js" ["a.js", "missing.js", "e.js"] false false [] with
  | none => exact absurd hp (by decide)
  | some st =>
    simpa using h.2 st hp

/-! ### Claim C4: the empty-minification degenerate case -/

/-- Claim C4, counterexample: the non-empty half of the claim says the
minifier output is appended "trimmed of trailing newlines"; the code
uses `minified.strip("\n")`, which trims LEADING newlines as well, so for
minifier output `"\nM\n"` the appended text is `"M;"` and not the
`"\nM;"` the claim predicts. -/
theorem pack_minified_trim_counterexample :
    (pack testEnv "t.js" ["a.js"] false false []).map PackSt.outtxt = some "M;"
    ∧ trimTrailingNewlines (testEnv.minify (testEnv.content "a.js")) ++ ";"
        ≠ "M;" := by
  constructor
  · decide
  · decide

/-- Claim C4 (amended): during `pack`, for every JS source dispatched to
the minifier, empty minifier output appends nothing at all to the
accumulated output (not even the terminator); non-empty output is
appended trimmed of leading AND trailing newlines, followed by the `;`
terminator. -/
theorem pack_minify_empty_appends_nothing (env : PEnv) (vb : Bool)
    (st : PackSt) (f0 f : String) (sfx : Option String)
    (hsplit : splitFlag f0 = some (f, sfx))
    (hex : env.pathExists f = true)
    (hdir : env.isdir f = false)
    (hparts : 2 ≤ (pySplit '.' f).length)
    (hext : (pySplit '.' f).getLastD "" = "js")
    (hsfx : sfx ≠ some "concat")
    (hmin : containsSub f ".min." = false) :
    (env.minify (env.content f) = "" →
      (packStep env "js" false vb st f0).map PackSt.outtxt = some st.outtxt)
    ∧ (env.minify (env.content f) ≠ "" →
      (packStep env "js" false vb st f0).map PackSt.outtxt
        = some (st.outtxt ++ (stripNl (env.minify (env.content f)) ++ ";"))) := by
  have hskip : (!env.pathExists f || env.isdir f) = false := by
    rw [hex, hdir]
    rfl
  have htry : tryBody env "js" false vb f sfx
      = some (if env.minify (env.content f) = "" then ""
              else stripNl (env.minify (env.content f)) ++ ";",
          if vb then
            [f ++ ": " ++ toString ((env.minify (env.content f)).length / 1024)
              ++ "k"] else []) := by
    rw [tryBody]
    rw [if_neg (by omega)]
    rw [if_pos ⟨rfl, hext, rfl, hsfx, hmin⟩]
  constructor
  · intro hm
    simp only [packStep, hsplit, hskip, Bool.false_eq_true, if_false, htry]
    simp [hm]
  · intro hm
    simp only [packStep, hsplit, hskip, Bool.false_eq_true, if_false, htry]
    simp [if_neg hm]

/-- Claim C4, witness for the amended theorem: `e.js` minifies to the
empty string and contributes nothing; `a.js` minifies to `"\nM\n"` and
contributes it stripped of newlines on both ends plus the terminator. -/
theorem pack_minify_empty_appends_nothing_witness :
    ((packStep testEnv "js" false false { outtxt := "", ts := [], logs := [] }
        "e.js").map PackSt.outtxt = some "")
    ∧ ((packStep testEnv "js" false false { outtxt := "", ts := [], logs := [] }
        "a.js").map PackSt.outtxt
      = some ("" ++ (stripNl (testEnv.minify (testEnv.content "a.js")) ++ ";"))) :=
  ⟨(pack_minify_empty_appends_nothing testEnv false
      { outtxt := "", ts := [], logs := [] } "e.js" "e.js" none
      (by decide) (by decide) (by decide) (by decide) (by decide) (by decide)
      (by decide)).1 (by decide),
   (pack_minify_empty_appends_nothing testEnv false
      { outtxt := "", ts := [], logs := [] } "a.js" "a.js" none
      (by decide) (by decide) (by decide) (by decide) (by decide) (by decide)
      (by decide)).2 (by decide)⟩

/-! ## Manifest Resolver (build.py `get_build_maps`) -/

/-- A source descriptor from a `build.json` manifest: a plain string
path (resolved against the owning app's path) or a two-element array
`[moduleName, relativePath]` (resolved through
`frappe.get_pymodule_path`). -/
inductive SourceDesc where
  | plain (s : String) : SourceDesc
  | modRel (moduleName relPath : String) : SourceDesc
deriving DecidableEq, Repr

/-- One app's parsed `build.json`: target key to source descriptors. -/
abbrev Manifest := List (String × List SourceDesc)

/-- The merged `build_maps` dict: target key to resolved source paths. -/
abbrev BuildMaps := List (String × List String)

/-- `os.path.join(a, b)` for one relative or absolute component. -/
def ospJoin (a b : String) : String :=
  if b.toList.take 1 = ['/'] then b
  else if a = "" then b
  else if a.toList.getLast? = some '/' then a ++ b
  else a ++ "/" ++ b

/-- Resolve one descriptor to an absolute path (build.py lines 312-317):
a list descriptor goes through `frappe.get_pymodule_path(source[0],
*source[1].split("/"))` — the external capability `pym` — and a plain
string through `os.path.join(app_path, source)`. -/
def resolveSource (pym : String → List String → String) (app_path : String) :
    SourceDesc → String
  | .plain s => ospJoin app_path s
  | .modRel m rel => pym m (pySplit '/' rel)

/-- The dict assignment `build_maps[target] = source_paths`: the new
binding replaces any existing one for the same key. -/
def bmInsert (bm : BuildMaps) (k : String) (v : List String) : BuildMaps :=
  (k, v) :: bm.filter (fun e => e.1 != k)

/-- Fold one app's manifest into `build_maps`. -/
def addManifest (pym : String → List String → String) (bm : BuildMaps)
    (app_path : String) (m : Manifest) : BuildMaps :=
  m.foldl (fun bm e => bmInsert bm e.1 (e.2.map (resolveSource pym app_path))) bm

/-- build.py `get_build_maps()`: each app path contributes its optional
`public/build.json`; `none` stands for a missing manifest file or a JSON
parse error (both leave `build_maps` untouched for that app, the latter
after printing the diagnostic). -/
def get_build_maps (pym : String → List String → String)
    (apps : List (String × Option Manifest)) : BuildMaps :=
  apps.foldl
    (fun bm a =>
      match a.2 with
      | none => bm
      | some m => addManifest pym bm a.1 m)
    []

theorem lookup_filter_ne {β : Type} (l : List (String × β)) (k q : String) :
    List.lookup q (l.filter (fun e => e.1 != k))
      = if q = k then none else List.lookup q l := by
  induction l with
  | nil => simp
  | cons e rest ih =>
    obtain ⟨k0, v0⟩ := e
    by_cases hk : k0 = k
    · subst hk
      simp only [List.filter, bne_self_eq_false]
      rw [ih]
      by_cases hq : q = k0
      · simp [hq]
      · simp [if_neg hq, List.lookup, show (q == k0) = false by simpa using hq]
    · simp only [List.filter, show (k0 != k) = true by simpa using hk]
      by_cases hq : q = k0
      · subst hq
        simp [List.lookup, if_neg hk]
      · simp only [List.lookup, show (q == k0) = false by simpa using hq]
        exact ih

theorem lookup_bmInsert (bm : BuildMaps) (k q : String) (v : List String) :
    List.lookup q (bmInsert bm k v)
      = if q = k then some v else List.lookup q bm := by
  by_cases hq : q = k
  · subst hq
    simp [bmInsert, List.lookup]
  · simp only [bmInsert, List.lookup, show (q == k) = false by simpa using hq,
      if_neg hq]
    have := lookup_filter_ne bm k q
    rw [if_neg hq] at this
    exact this

theorem lookup_eq_none_of_not_mem_keys {β : Type} (l : List (String × β))
    (k : String) (h : k ∉ l.map Prod.fst) : List.lookup k l = none := by
  induction l with
  | nil => rfl
  | cons e rest ih =>
    simp only [List.map_cons, List.mem_cons] at h
    push_neg at h
    simp only [List.lookup, show (k == e.1) = false by simpa using h.1]
    exact ih h.2

theorem lookup_addManifest (pym : String → List String → String) (p : String) :
    ∀ (m : Manifest) (bm : BuildMaps) (k : String),
      (m.map Prod.fst).Nodup →
      List.lookup k (addManifest pym bm p m)
        = match List.lookup k m with
          | some v => some (v.map (resolveSource pym p))
          | none => List.lookup k bm := by
  intro m
  induction m with
  | nil => intro bm k _; rfl
  | cons e rest ih =>
    intro bm k h
    obtain ⟨k0, v0⟩ := e
    simp only [List.map_cons, List.nodup_cons] at h
    obtain ⟨hk0, hrest⟩ := h
    show List.lookup k
        (addManifest pym (bmInsert bm k0 (v0.map (resolveSource pym p))) p rest)
      = _
    rw [ih (bmInsert bm k0 (v0.map (resolveSource pym p))) k hrest]
    by_cases hk : k = k0
    · subst hk
      rw [lookup_eq_none_of_not_mem_keys rest k hk0]
      simp [List.lookup, lookup_bmInsert]
    · simp only [List.lookup, show (k == k0) = false by simpa using hk]
      cases hl : List.lookup k rest with
      | some v => rfl
      | none =>
        have hfe := lookup_filter_ne bm k0 k
        rw [if_neg hk] at hfe
        simpa using hfe

/-! ### Claim C3: merging manifests is last-write-wins on target keys -/

/-- Claim C3: merging two apps' manifests (in input order) yields, for
every target key: the second app's resolved source list whenever the
second app declares the key (outright replacement, no concatenation);
otherwise the first app's resolved list if it declares the key;
otherwise no entry.  With disjoint key sets this is exactly the union of
both resolved maps. -/
theorem get_build_maps_merge (pym : String → List String → String)
    (p1 p2 : String) (m1 m2 : Manifest)
    (h1 : (m1.map Prod.fst).Nodup) (h2 : (m2.map Prod.fst).Nodup) :
    (∀ k v1, List.lookup k m1 = some v1 → List.lookup k m2 = none →
      List.lookup k (get_build_maps pym [(p1, some m1), (p2, some m2)])
        = some (v1.map (resolveSource pym p1)))
    ∧ (∀ k v2, List.lookup k m2 = some v2 →
      List.lookup k (get_build_maps pym [(p1, some m1), (p2, some m2)])
        = some (v2.map (resolveSource pym p2)))
    ∧ (∀ k, List.lookup k m1 = none → List.lookup k m2 = none →
      List.lookup k (get_build_maps pym [(p1, some m1), (p2, some m2)])
        = none) := by
  have hg : get_build_maps pym [(p1, some m1), (p2, some m2)]
      = addManifest pym (addManifest pym [] p1 m1) p2 m2 := rfl
  refine ⟨?_, ?_, ?_⟩
  · intro k v1 hv1 hn2
    rw [hg, lookup_addManifest pym p2 m2 _ k h2, hn2,
      lookup_addManifest pym p1 m1 [] k h1, hv1]
  · intro k v2 hv2
    rw [hg, lookup_addManifest pym p2 m2 _ k h2, hv2]
  · intro k hn1 hn2
    rw [hg, lookup_addManifest pym p2 m2 _ k h2, hn2,
      lookup_addManifest pym p1 m1 [] k h1, hn1]
    rfl

/-- Claim C3, witness: two small manifests sharing the key `app.js`. -/
theorem get_build_maps_merge_witness :
    (List.lookup "desk.js"
        (get_build_maps (fun m ps => List.foldl (fun a b => a ++ "/" ++ b) m ps)
          [("apps/one", some [("app.js", [SourceDesc.plain "js/a.js"]),
              ("desk.js", [SourceDesc.plain "d.js"])]),
           ("apps/two", some [("app.js", [SourceDesc.modRel "frappe" "x/y.js"]),
              ("web.css", [SourceDesc.plain "c.css"])])])
      = some ["apps/one/d.js"])
    ∧ (List.lookup "app.js"
        (get_build_maps (fun m ps => List.foldl (fun a b => a ++ "/" ++ b) m ps)
          [("apps/one", some [("app.js", [SourceDesc.plain "js/a.js"]),
              ("desk.js", [SourceDesc.plain "d.js"])]),
           ("apps/two", some [("app.js", [SourceDesc.modRel "frappe" "x/y.js"]),
              ("web.css", [SourceDesc.plain "c.css"])])])
      = some ["frappe/x/y.js"])
    ∧ (List.lookup "no.js"
        (get_build_maps (fun m ps => List.foldl (fun a b => a ++ "/" ++ b) m ps)
          [("apps/one", some [("app.js", [SourceDesc.plain "js/a.js"]),
              ("desk.js", [SourceDesc.plain "d.js"])]),
           ("apps/two", some [("app.js", [SourceDesc.modRel "frappe" "x/y.js"]),
              ("web.css", [SourceDesc.plain "c.css"])])])
      = none) := by
  have h := get_build_maps_merge
    (fun m ps => List.foldl (fun a b => a ++ "/" ++ b) m ps)
    "apps/one" "apps/two"
    [("app.js", [SourceDesc.plain "js/a.js"]),
     ("desk.js", [SourceDesc.plain "d.js"])]
    [("app.js", [SourceDesc.modRel "frappe" "x/y.js"]),
     ("web.css", [SourceDesc.plain "c.css"])]
    (by decide) (by decide)
  refine ⟨?_, ?_, ?_⟩
  · have := h.1 "desk.js" [SourceDesc.plain "d.js"] (by decide) (by decide)
    rw [this]
    decide
  · have := h.2.1 "app.js" [SourceDesc.modRel "frappe" "x/y.js"] (by decide)
    rw [this]
    decide
  · exact h.2.2 "no.js" (by decide) (by decide)

/-! ## Dirty Tracker (build.py `files_dirty`) -/

/-- Inner loop of `files_dirty` over one target's sources: split off the
`:flag` suffix (same unpacking as `pack`, so two or more colons raise —
`none`), skip missing/directory paths, and return `True` at the first
source whose current mtime differs from `timestamps.get(f)` (a missing
cache entry also differs: `getmtime(f) != None`). -/
def files_dirty_sources (env : PEnv) (ts : TS) : List String → Option Bool
  | [] => some false
  | f0 :: rest =>
    match splitFlag f0 with
    | none => none
    | some (f, _) =>
      if !env.pathExists f || env.isdir f then files_dirty_sources env ts rest
      else if some (env.mtime f) ≠ TS.get ts f then some true
      else files_dirty_sources env ts rest

/-- build.py `files_dirty()`, iterating target by target over the build
map (passed here as an argument in place of the `get_build_maps()`
call); `some true` is returned from inside the loops at the first dirty
source, `some false` only after every target's sources were scanned. -/
def files_dirty (env : PEnv) (ts : TS) :
    List (String × List String) → Option Bool
  | [] => some false
  | (_, sources) :: rest =>
    match files_dirty_sources env ts sources with
    | none => none
    | some true => some true
    | some false => files_dirty env ts rest

/-- A source the scan passes over without returning: well-formed (at
most one colon) and either skipped (missing/directory) or carrying an
unchanged mtime. -/
def sourceClean (env : PEnv) (ts : TS) (f0 : String) : Bool :=
  match splitFlag f0 with
  | none => false
  | some (f, _) =>
    (!env.pathExists f || env.isdir f) || (some (env.mtime f) == TS.get ts f)

/-- A source the scan stops at: existing, not a directory, mtime
differing from the cached value. -/
def sourceDirty (env : PEnv) (ts : TS) (f0 : String) : Bool :=
  match splitFlag f0 with
  | none => false
  | some (f, _) =>
    env.pathExists f && !env.isdir f && (some (env.mtime f) != TS.get ts f)

theorem files_dirty_sources_cons_clean (env : PEnv) (ts : TS) (f0 : String)
    (rest : List String) (h : sourceClean env ts f0 = true) :
    files_dirty_sources env ts (f0 :: rest) = files_dirty_sources env ts rest := by
  rw [sourceClean] at h
  cases hs : splitFlag f0 with
  | none => rw [hs] at h; exact Bool.noConfusion h
  | some p =>
    obtain ⟨f, sfx⟩ := p
    rw [hs] at h
    simp only [files_dirty_sources, hs]
    by_cases hc : (!env.pathExists f || env.isdir f) = true
    · rw [if_pos hc]
    · rw [if_neg hc]
      rw [Bool.or_eq_true] at h
      rcases h with h | h
    -- the skip condition is false, so the mtime comparison must be clean
      · exact absurd h hc
      · rw [if_neg (by simpa using h)]

theorem files_dirty_sources_all_clean (env : PEnv) (ts : TS) :
    ∀ l : List String, (∀ f0 ∈ l, sourceClean env ts f0 = true) →
      files_dirty_sources env ts l = some false := by
  intro l
  induction l with
  | nil => intro _; rfl
  | cons f0 rest ih =>
    intro h
    rw [files_dirty_sources_cons_clean env ts f0 rest (h f0 (by simp))]
    exact ih (fun g hg => h g (by simp [hg]))

theorem files_dirty_sources_hits_dirty (env : PEnv) (ts : TS) (d : String)
    (hd : sourceDirty env ts d = true) :
    ∀ (pre post : List String), (∀ f0 ∈ pre, sourceClean env ts f0 = true) →
      files_dirty_sources env ts (pre ++ d :: post) = some true := by
  intro pre
  induction pre with
  | nil =>
    intro post _
    rw [sourceDirty] at hd
    cases hs : splitFlag d with
    | none => rw [hs] at hd; exact Bool.noConfusion hd
    | some p =>
      obtain ⟨f, sfx⟩ := p
      rw [hs] at hd
      simp only [Bool.and_eq_true, bne_iff_ne] at hd
      obtain ⟨⟨hex, hnd⟩, hne⟩ := hd
      simp only [List.nil_append, files_dirty_sources, hs]
      rw [if_neg (by simp [hex, Bool.not_eq_true] at hnd ⊢; simp [hex, hnd])]
      rw [if_pos hne]
  | cons f0 rest ih =>
    intro post h
    rw [List.cons_append,
      files_dirty_sources_cons_clean env ts f0 (rest ++ d :: post)
        (h f0 (by simp))]
    exact ih post (fun g hg => h g (by simp [hg]))

theorem files_dirty_clean_targets (env : PEnv) (ts : TS) :
    ∀ (bm1 bm2 : List (String × List String)),
      (∀ f0 ∈ (bm1.map Prod.snd).flatten, sourceClean env ts f0 = true) →
      files_dirty env ts (bm1 ++ bm2) = files_dirty env ts bm2 := by
  intro bm1
  induction bm1 with
  | nil => intro bm2 _; rfl
  | cons e rest ih =>
    intro bm2 h
    obtain ⟨t, sources⟩ := e
    simp only [List.map_cons, List.flatten] at h
    have hsrc : ∀ f0 ∈ sources, sourceClean env ts f0 = true := by
      intro g hg
      exact h g (by simp [hg])
    rw [List.cons_append]
    simp only [files_dirty,
      files_dirty_sources_all_clean env ts sources hsrc]
    exact ih bm2 (fun g hg => h g (by simp [hg]))

/-! ### Claim C7: the dirty check stops at the first dirty source -/

/-- Claim C7: over any build map in which, in scan order, every source
before some dirty one is clean (well-formed and skipped or unchanged)
and that source exists, is not a directory, and has an mtime differing
from its cached value, `files_dirty` returns `True` — whatever comes
after the dirty source (later sources of the same target and whole later
targets are universally quantified and unconstrained, so they are never
examined).  And when every source of the map is clean, it returns
`False`. -/
theorem files_dirty_first_dirty_stops (env : PEnv) (ts : TS) :
    (∀ (bm1 : List (String × List String)) (t : String)
        (pre post : List String) (d : String)
        (bm2 : List (String × List String)),
      (∀ f0 ∈ (bm1.map Prod.snd).flatten ++ pre, sourceClean env ts f0 = true) →
      sourceDirty env ts d = true →
      files_dirty env ts (bm1 ++ (t, pre ++ d :: post) :: bm2) = some true)
    ∧ (∀ bm : List (String × List String),
      (∀ f0 ∈ (bm.map Prod.snd).flatten, sourceClean env ts f0 = true) →
      files_dirty env ts bm = some false) := by
  constructor
  · intro bm1 t pre post d bm2 h hd
    rw [files_dirty_clean_targets env ts bm1 ((t, pre ++ d :: post) :: bm2)
      (fun g hg => h g (by simp [List.mem_append.mpr (Or.inl hg)]))]
    simp only [files_dirty,
      files_dirty_sources_hits_dirty env ts d hd pre post
        (fun g hg => h g (by simp [hg]))]
  · intro bm h
    induction bm with
    | nil => rfl
    | cons e rest ih =>
      obtain ⟨t, sources⟩ := e
      simp only [List.map_cons, List.flatten] at h
      simp only [files_dirty,
        files_dirty_sources_all_clean env ts sources
          (fun g hg => h g (by simp [hg]))]
      exact ih (fun g hg => h g (by simp [hg]))

/-- Claim C7, witness: the dirty source `d.js` (no cache entry, so its
mtime differs) stops the scan before sources that would even crash the
split step (`x:y:z`), after a clean target and a skipped missing file;
and a fully clean map reports not dirty. -/
theorem files_dirty_first_dirty_stops_witness :
    files_dirty testEnv [("a.js", 5)]
        [("t0", ["a.js"]), ("t1", ["missing.js", "d.js", "x:y:z"]),
         ("t2", ["w:w:w"])] = some true
    ∧ files_dirty testEnv [("a.js", 5)] [("t0", ["a.js", "missing.js"])]
        = some false :=
  ⟨(files_dirty_first_dirty_stops testEnv [("a.js", 5)]).1
      [("t0", ["a.js"])] "t1" ["missing.js"] ["x:y:z"] "d.js"
      [("t2", ["w:w:w"])] (by decide) (by decide),
   (files_dirty_first_dirty_stops testEnv [("a.js", 5)]).2
      [("t0", ["a.js", "missing.js"])] (by decide)⟩
